import Mathlib

/-!
# Verification of the commit-action repository

Shallow embedding of the commit-action sources (src/input.ts, src/index.ts,
src/getRepoFiles.ts, src/createCommit.ts) together with theorems settling the
frozen claims about them.

Modelling conventions:
* JavaScript strings are Lean `String`s; a value that can be `undefined` at
  runtime is an `Option`.  The JavaScript string primitives used by the
  sources (`trim`, `split`, `charCodeAt`, template concatenation) are defined
  below over the underlying character list, so that every embedded function
  is executable by kernel reduction.
* Thrown `Error`s are `Except.error` carrying the error message.
* The GraphQL network answers are passed in as explicit arguments (a function
  from alias to "file lookup returned non-null", or a concrete response
  structure), since the network itself is outside the embedded code.
* Loops with early exit are translated to structural recursion; where the
  source loop mutates its own iteration target, the iterator index semantics
  of JavaScript `for...of` are reproduced explicitly (see `shiftLoopGo`).
-/

/-- Whitespace for JavaScript `String.prototype.trim`: the ASCII whitespace
characters.  (JavaScript also strips a handful of Unicode space characters,
none of which occur in the inputs any claim is about.) -/
def jsIsSpace (c : Char) : Bool :=
  c = ' ' || c = '\t' || c = '\n' || c = '\r' || c = '\x0b' || c = '\x0c'

/-- JavaScript `s.trim()`: drop whitespace from both ends. -/
def jsTrim (s : String) : String :=
  String.mk (((s.data.dropWhile jsIsSpace).reverse.dropWhile jsIsSpace).reverse)

/-- Split a character list on a separator character.  Mirrors JavaScript
`split` with a single-character separator (also as a regular expression such
as `/\n/g`): the empty string yields `[""]`, adjacent separators yield empty
segments. -/
def splitOnChar (sep : Char) : List Char → List (List Char)
  | [] => [[]]
  | c :: rest =>
    match splitOnChar sep rest with
    | [] => [[]]
    | h :: t => if c = sep then [] :: h :: t else (c :: h) :: t

/-- JavaScript `s.split(sep)` for a one-character separator. -/
def jsSplit (sep : Char) (s : String) : List String :=
  (splitOnChar sep s.data).map String.mk

/-- `RepositoryType` of src/input.ts.  The TypeScript annotation of
`repository` is `string`, but the runtime value produced by
`const [owner, repo] = input.split('/')` is `undefined` whenever the split
yields fewer than two segments, so the faithful runtime model is an
`Option String`. -/
structure RepositoryType where
  owner : String
  repository : Option String
deriving Repr, DecidableEq

/-- `getInputRepository` of src/input.ts, as a function of the action input
`repository` and the environment variable `GITHUB_REPOSITORY`.
The destructuring `const [owner, repo] = input.split('/')` takes the first
two segments; `owner` always exists because a split result is never empty,
while `repo` is `undefined` when there is no `/`.  The guard in the source is
`owner === '' || repo === ''`; in JavaScript `undefined === ''` is `false`,
which the model renders as `repo? = some ""`. -/
def getInputRepository (input env : String) : Except String RepositoryType :=
  if input = "" ∧ env = "" then
    Except.error ("repository could not be determined; input 'repository' " ++
      "not specified and 'env.GITHUB_REPOSITORY' was empty")
  else if input ≠ "" then
    let parts := jsSplit '/' input
    let owner := parts.headD ""
    let repo := parts[1]?
    if owner = "" ∨ repo = some "" then
      Except.error ("input 'repository' could not be parsed: '" ++ input ++
        "'; must be formatted as 'OWNER/REPOSITORY'")
    else
      Except.ok { owner := owner, repository := repo }
  else
    let parts := jsSplit '/' env
    let owner := parts.headD ""
    let repo := parts[1]?
    if owner = "" ∨ repo = some "" then
      Except.error "GITHUB_REPOSITORY environment variable could not be interpreted"
    else
      Except.ok { owner := owner, repository := repo }

/-- `CommitMessageType` of src/createCommit.ts: optional `default` marker,
mandatory `headline`, optional `body`. -/
structure CommitMessageType where
  default : Option Bool
  headline : String
  body : Option String
deriving Repr, DecidableEq

/-- Remove a single trailing carriage return: the regular expression `/\r?\n/`
consumes a `\r` immediately preceding each `\n`. -/
def stripCR (s : String) : String :=
  match s.data.getLast? with
  | some '\r' => String.mk s.data.dropLast
  | _ => s

/-- JavaScript `content.split(/\r?\n/g)`: split on `\n`, and strip the `\r`
that the regular expression would have consumed at the end of every segment
except the last (the last segment is not followed by a `\n`, so a trailing
`\r` there is kept). -/
def splitCRLF (s : String) : List String :=
  let parts := jsSplit '\n' s
  parts.dropLast.map stripCR ++ [parts.getLastD ""]

/-- One step per JavaScript `for...of` iteration of the loop

```
for (const line of lines) \x7b
  if (line.trim() === '') \x7b lines.shift(); continue; \x7d
  break;
\x7d
```

in `getInputCommitMessage` (src/input.ts).  The array iterator keeps a cursor
`i` into the current array and yields `lines[i]` while `i < lines.length`;
`lines.shift()` removes the front element without adjusting the cursor.  The
`fuel` argument only forces termination: every iteration shortens the list by
one, so the loop runs at most `l.length` iterations and the initial fuel
`l.length + 1` is never exhausted before the loop exits on its own. -/
def shiftLoopGo : Nat → List String → Nat → List String
  | 0, l, _ => l
  | fuel + 1, l, i =>
    if i < l.length then
      if jsTrim (l.getD i "") = "" then shiftLoopGo fuel l.tail (i + 1) else l
    else l

/-- The blank-line-consuming loop of `getInputCommitMessage`, started at
cursor 0 with sufficient fuel. -/
def shiftLoop (l : List String) : List String :=
  shiftLoopGo (l.length + 1) l 0

/-- The `message_file` branch of `getInputCommitMessage` (src/input.ts),
applied to the contents of the message file (the existence check happens
before the file is read and is not part of this content-level function):
split on `/\r?\n/`, run the blank-line loop, fail when nothing remains,
otherwise shift the first line (trimmed) as headline and join/trim the rest
as body, omitting a blank body. -/
def getInputCommitMessageFromFileContent (content : String) :
    Except String CommitMessageType :=
  match shiftLoop (splitCRLF content) with
  | [] => Except.error "commit message is empty"
  | first :: rest =>
    let body := jsTrim (String.intercalate "\n" rest)
    Except.ok
      { default := none
        headline := jsTrim first
        body := if body ≠ "" then some body else none }

/-- The inline `message` branch of `getInputCommitMessage` (src/input.ts):
identical loop and assembly, but the raw input is trimmed *before* the split
on `/\n/g`. -/
def getInputCommitMessageFromInline (inputMessage : String) :
    Except String CommitMessageType :=
  match shiftLoop (jsSplit '\n' (jsTrim inputMessage)) with
  | [] => Except.error "commit message is empty"
  | first :: rest =>
    let body := jsTrim (String.intercalate "\n" rest)
    Except.ok
      { default := none
        headline := jsTrim first
        body := if body ≠ "" then some body else none }

/-- The base58 alphabet of `base58Encode` (src/getRepoFiles.ts), as a
character list: `'123456789ABCDEFGHJKLMNPQRSTUVWXYZabcdefghijkmnopqrstuvwxyz'`. -/
def B58ALPHANUM : List Char :=
  "123456789ABCDEFGHJKLMNPQRSTUVWXYZabcdefghijkmnopqrstuvwxyz".data

/-- Indexing `B58ALPHANUM[i]` for an in-range index. -/
def b58char (i : Nat) : Char := B58ALPHANUM.getD i '?'

/-- The UTF-16 code units of a string.  JavaScript
`input.split('').map((c) => c.charCodeAt(0))` yields exactly the UTF-16 code
units: a code point below `0x10000` is one unit, a higher code point is a
surrogate pair. -/
def utf16Units (s : String) : List Nat :=
  s.data.flatMap (fun c =>
    if c.toNat < 0x10000 then [c.toNat]
    else [0xD800 + (c.toNat - 0x10000) / 0x400, 0xDC00 + (c.toNat - 0x10000) % 0x400])

/-- Number of base-16 digits of `x` (0 for `x = 0`); the `fuel` argument only
forces termination (`fuel = x` suffices since a number never has more digits
than its value). -/
def hexLenGo : Nat → Nat → Nat
  | 0, _ => 0
  | fuel + 1, x => if x = 0 then 0 else hexLenGo fuel (x / 16) + 1

/-- Number of hex digits produced by JavaScript
`c.toString(16).padStart(2, '0')` for the unit value `c`: the number of hex
digits of `c` (at least one — `toString` gives `"0"` for zero), padded up to
at least 2 (which also absorbs the zero case). -/
def hexChunkLen (n : Nat) : Nat := max 2 (hexLenGo n n)

/-- Numeric value of `BigInt('0x' + hex)` where `hex` is the concatenation of
the padded hex chunks of the units, built left to right.  Appending a chunk
of `hexChunkLen n` hex digits multiplies the accumulated value by
`16 ^ hexChunkLen n` and adds the chunk's value `n` (every chunk's value fits
in its digit count). -/
def hexValue (units : List Nat) : Nat :=
  units.foldl (fun acc n => acc * 16 ^ hexChunkLen n + n) 0

/-- Division-remainder loop extracting base-`radix` digits least-significant
first.  The `fuel` argument only forces termination (`x` strictly decreases,
so `fuel = x` suffices). -/
def divRadixGo (radix : Nat) : Nat → Nat → List Nat
  | 0, _ => []
  | fuel + 1, x => if x = 0 then [] else x % radix :: divRadixGo radix fuel (x / radix)

/-- The division loop of `base58Encode` (src/getRepoFiles.ts):

```
while (x > 0) \x7b const mod = Number(x % 58n); x = x / 58n; output.push(B58ALPHANUM[mod]); \x7d
```

producing base-58 digit indices least-significant first. -/
def b58DigitsLE (x : Nat) : List Nat := divRadixGo 58 x x

/-- The trailing loop of `base58Encode`:
`for (let i = 0; input[i] === 0; i++) output.push(B58ALPHANUM[0])` — one `'1'`
per leading zero unit (out-of-range access yields `undefined`, which stops the
loop). -/
def leadingZeros : List Nat → Nat
  | [] => 0
  | n :: rest => if n = 0 then leadingZeros rest + 1 else 0

/-- `base58Encode` (src/getRepoFiles.ts) on a unit list (the `Uint8Array`
path, and the tail of the string path after `charCodeAt` conversion): empty
input yields `''`; otherwise the digit characters are pushed least-significant
first, then one `'1'` per leading zero unit, and the buffer is reversed and
joined. -/
def base58EncodeUnits (units : List Nat) : String :=
  if units.length = 0 then "" else
    let x := hexValue units
    let output := (b58DigitsLE x).map b58char ++ List.replicate (leadingZeros units) '1'
    String.mk output.reverse

/-- `base58Encode` on a string input: the string is first converted to its
UTF-16 code units via `split('')`/`charCodeAt(0)`, and the resulting array is
passed through the `new Uint8Array(...)` constructor, which converts every
element to a byte by reducing it modulo 256.  (The `input.length === 0` check
in the source is equivalent to the unit list being empty, since every
character contributes at least one unit.) -/
def base58Encode (s : String) : String :=
  base58EncodeUnits ((utf16Units s).map (fun n => n % 256))

/-- The GraphQL alias `` `_$\x7bbase58Encode(file)\x7d` `` built for each input file
in `getRepoFiles` (src/getRepoFiles.ts). -/
def alias58 (p : String) : String := "_" ++ base58Encode p

/-- `Object.keys` of a string-keyed object populated by inserting each list
element in order: first occurrences, in insertion order.  (JavaScript would
additionally front-load keys that are canonical array indices; no claim
depends on the relative order of buckets, only on their membership, which is
unaffected.) -/
def jsKeysGo (seen : List String) : List String → List String
  | [] => []
  | f :: rest =>
    if f ∈ seen then jsKeysGo seen rest
    else f :: jsKeysGo (seen ++ [f]) rest

/-- First occurrences in insertion order (see `jsKeysGo`). -/
def jsKeys (l : List String) : List String := jsKeysGo [] l

/-- `RepoFilesActionType` of src/getRepoFiles.ts: each bucket is optional and
set to `undefined` rather than an empty array. -/
structure RepoFilesActionType where
  createFiles : Option (List String)
  modifyFiles : Option (List String)
  deleteFiles : Option (List String)
deriving Repr, DecidableEq

/-- The response-classification tail of `getRepoFiles` (src/getRepoFiles.ts).
`remote alias = true` models a non-null `file(path:...)` object under the
response field `alias`, `false` models `null` (the network transport is not
part of the embedded computation).  The source iterates
`Object.keys(inputFilesCreateModify)` (the deduplicated insertion-order keys)
and pushes each file into `modifyFiles` when its response field is non-null
and into `createFiles` when it is null — i.e. it filters the keys by the
remote answer for the file's alias.  Delete candidates are classified the
same way, guarded by `inputDeleteFiles.length !== 0`, with null results only
logged.  Each bucket is returned as `undefined` when its array is empty. -/
def getRepoFilesClassify (inputCreateModifyFiles inputDeleteFiles : List String)
    (remote : String → Bool) : RepoFilesActionType :=
  let keysCM := jsKeys inputCreateModifyFiles
  let keysDel := jsKeys inputDeleteFiles
  let createFiles := keysCM.filter (fun f => !remote (alias58 f))
  let modifyFiles := keysCM.filter (fun f => remote (alias58 f))
  let deleteFiles :=
    if inputDeleteFiles.length ≠ 0 then
      keysDel.filter (fun f => remote (alias58 f))
    else []
  { createFiles := if createFiles.length ≠ 0 then some createFiles else none
    modifyFiles := if modifyFiles.length ≠ 0 then some modifyFiles else none
    deleteFiles := if deleteFiles.length ≠ 0 then some deleteFiles else none }

/-- Modelled from the spec: the spec's testable property 5 checks the base58
encoding by "decoding (reversal, for test purposes)"; no decoder exists in
the repository, so this is the standard base58 reversal: count the leading
`'1'` characters (one per leading zero byte), interpret the remaining
characters as base-58 digits via the alphabet, and write the resulting value
in base-256, most significant byte first. -/
def countLeadingOnes : List Char → Nat
  | [] => 0
  | c :: rest => if c = '1' then countLeadingOnes rest + 1 else 0

/-- Index of a character in the base58 alphabet (helper of the spec-modelled
decoder). -/
def b58Index (c : Char) : Nat := B58ALPHANUM.indexOf c

/-- Value of a most-significant-first base-58 digit-character list (helper of
the spec-modelled decoder). -/
def decodeB58Chars (cs : List Char) : Nat :=
  cs.foldl (fun acc c => acc * 58 + b58Index c) 0

/-- Modelled from the spec: base58 decoding (see `countLeadingOnes`). -/
def base58Decode (s : String) : List Nat :=
  let k := countLeadingOnes s.data
  let x := decodeB58Chars (s.data.drop k)
  List.replicate k 0 ++ (divRadixGo 256 x x).reverse

/-- `generateDefaultCommitMessageBody` (src/index.ts): one pushed line per
file, `createFiles` first, then `modifyFiles`, then `deleteFiles`, each
bucket skipped when `undefined`, joined with `'\n'`. -/
def generateDefaultCommitMessageBody (files : RepoFilesActionType) : String :=
  let out : List String :=
    (match files.createFiles with
     | some l => l.map (fun file => "created  '" ++ file ++ "'")
     | none => []) ++
    (match files.modifyFiles with
     | some l => l.map (fun file => "modified '" ++ file ++ "'")
     | none => []) ++
    (match files.deleteFiles with
     | some l => l.map (fun file => "deleted  '" ++ file ++ "'")
     | none => [])
  String.intercalate "\n" out

/-- `CommitFileChangeType` of src/createCommit.ts. -/
structure CommitFileChangeType where
  path : String
  contents : Option String
deriving Repr, DecidableEq

/-- `CommitFileChangesType` of src/createCommit.ts: both arrays optional. -/
structure CommitFileChangesType where
  additions : Option (List CommitFileChangeType)
  deletions : Option (List CommitFileChangeType)
deriving Repr, DecidableEq

/-- A location entry of a GraphQL error (src/createCommit.ts). -/
structure GraphQLErrorLocation where
  line : Nat
  column : Nat
deriving Repr, DecidableEq

/-- One entry of the `errors` array of `CreateCommitResponseType`
(src/createCommit.ts). -/
structure GraphQLError where
  type : String
  path : List String
  locations : List GraphQLErrorLocation
  message : String
deriving Repr, DecidableEq

/-- The `data.createCommitOnBranch.commit` payload of
`CreateCommitResponseType` (src/createCommit.ts). -/
structure CommitPayload where
  url : String
deriving Repr, DecidableEq

/-- The `data.createCommitOnBranch` payload. -/
structure CreateCommitOnBranchPayload where
  commit : CommitPayload
deriving Repr, DecidableEq

/-- The `data` payload. -/
structure CreateCommitDataPayload where
  createCommitOnBranch : CreateCommitOnBranchPayload
deriving Repr, DecidableEq

/-- `CreateCommitResponseType` of src/createCommit.ts: `data` is `null` when
the response contains errors, and `errors` is `undefined` when no errors were
returned. -/
structure CreateCommitResponseType where
  data : Option CreateCommitDataPayload
  errors : Option (List GraphQLError)
deriving Repr, DecidableEq

/-- Lower-case hex digit. -/
def hexDigitChar (n : Nat) : Char := "0123456789abcdef".data.getD n '0'

/-- JSON string escaping as performed by `JSON.stringify` on each character
of a string value. -/
def jsonEscapeChar (c : Char) : String :=
  if c = '"' then "\\\""
  else if c = '\\' then "\\\\"
  else if c = '\n' then "\\n"
  else if c = '\r' then "\\r"
  else if c = '\t' then "\\t"
  else if c = '\x08' then "\\b"
  else if c = '\x0c' then "\\f"
  else if c.toNat < 0x20 then
    "\\u00" ++ String.mk [hexDigitChar (c.toNat / 16), hexDigitChar (c.toNat % 16)]
  else String.mk [c]

/-- `JSON.stringify` of a string value. -/
def jsonQuote (s : String) : String :=
  "\"" ++ String.join (s.data.map jsonEscapeChar) ++ "\""

/-- `JSON.stringify` of an array of string values. -/
def jsonStringifyStrings (l : List String) : String :=
  "[" ++ String.intercalate "," (l.map jsonQuote) ++ "]"

/-- The response inspection at the end of `createCommit`
(src/createCommit.ts): when `execRequest.errors !== undefined`, collect every
error's `message` and throw
`` `error(s) processing the commit: $\x7bJSON.stringify(messages)\x7d` ``; otherwise
return the response unchanged. -/
def checkCommitResponse (execRequest : CreateCommitResponseType) :
    Except String CreateCommitResponseType :=
  match execRequest.errors with
  | some errors =>
    Except.error ("error(s) processing the commit: " ++
      jsonStringifyStrings (errors.map (fun e => e.message)))
  | none => Except.ok execRequest

/-- The `fileChanges` assembly of `createCommit` (src/createCommit.ts):
`additions` is initialized (to an array) exactly when `createFiles` or
`modifyFiles` is defined, then filled from `createFiles` followed by
`modifyFiles`, each entry carrying the file's base64-encoded contents
(`readFile` stands for `readFileSync(file).toString('base64')`);
`deletions` is initialized and filled exactly when `deleteFiles` is defined,
entries carrying only the path. -/
def buildFileChanges (fileActions : RepoFilesActionType)
    (readFile : String → String) : CommitFileChangesType :=
  let additions :=
    if fileActions.createFiles.isSome || fileActions.modifyFiles.isSome then
      some (((fileActions.createFiles.getD []).map
               (fun file => { path := file, contents := some (readFile file) :
                  CommitFileChangeType })) ++
            ((fileActions.modifyFiles.getD []).map
               (fun file => { path := file, contents := some (readFile file) :
                  CommitFileChangeType })))
    else none
  let deletions :=
    match fileActions.deleteFiles with
    | some l => some (l.map (fun file =>
        { path := file, contents := none : CommitFileChangeType }))
    | none => none
  { additions := additions, deletions := deletions }

/-- `checkFilesExist` (src/index.ts): throw on the first create/modify file
that does not exist on local disk. -/
def checkFilesExist (files : List String) (existsOnDisk : String → Bool) :
    Except String Unit :=
  match files with
  | [] => Except.ok ()
  | file :: rest =>
    if existsOnDisk file then checkFilesExist rest existsOnDisk
    else Except.error ("create/modify file '" ++ file ++ "' does not exist")

/-- The two network operations `main` (src/index.ts) can issue, in source
order: the classification query of `getRepoFiles` and the commit mutation of
`createCommit`. -/
inductive NetworkOp where
  | classifyQuery
  | commitMutation
deriving Repr, DecidableEq

/-- The body of `main` (src/index.ts) from the `checkFilesExist(files)` call
onwards, with the resolved inputs and the outside world passed in:
`existsOnDisk` is the local filesystem existence check, `remote` the
classification answer (per alias), `readFile` the base64 file reader, and
`commitResp` the GraphQL response the commit mutation would return.  The
second component records every network operation started, in order; a thrown
error propagates immediately (the `try` block), so operations after the
throwing step are never reached. -/
def mainAfterInputs (files deleteFiles : List String)
    (message : CommitMessageType) (existsOnDisk : String → Bool)
    (remote : String → Bool) (readFile : String → String)
    (commitResp : CreateCommitResponseType) :
    Except String CreateCommitResponseType × List NetworkOp :=
  match checkFilesExist files existsOnDisk with
  | Except.error e => (Except.error e, [])
  | Except.ok _ =>
    let repoFilesAction := getRepoFilesClassify files deleteFiles remote
    let message :=
      if message.default.getD false then
        { message with body := some (generateDefaultCommitMessageBody repoFilesAction) }
      else message
    let _fileChanges := buildFileChanges repoFilesAction readFile
    let _message := message
    match checkCommitResponse commitResp with
    | Except.error e =>
      (Except.error e, [NetworkOp.classifyQuery, NetworkOp.commitMutation])
    | Except.ok resp =>
      (Except.ok resp, [NetworkOp.classifyQuery, NetworkOp.commitMutation])

/-- A value thrown somewhere in the pipeline, as discriminated by the
`e instanceof Error` test of `main`'s catch block (src/index.ts): either an
`Error` instance carrying a message, or any other thrown value. -/
inductive ThrownValue where
  | errorInstance (message : String)
  | nonError (payload : String)
deriving Repr, DecidableEq

/-- The catch block of `main` (src/index.ts):
`if (e instanceof Error) setFailed(e.message)` — returns the argument passed
to `setFailed`, or `none` when `setFailed` is not called.  Nothing is
rethrown: the function is total. -/
def topLevelHandler (e : ThrownValue) : Option String :=
  match e with
  | ThrownValue.errorInstance message => some message
  | ThrownValue.nonError _ => none

/-- The observable outcome of one `main` run (src/index.ts): the message
passed to `setFailed` (if any), and the `commit success: ...` info line (if
any).  A successful run logs success only when `resp.data != null`; a run
ending in a thrown value goes through `topLevelHandler`. -/
def mainOutcome (run : Except ThrownValue CreateCommitResponseType) :
    Option String × Option String :=
  match run with
  | Except.ok resp =>
    (none,
     match resp.data with
     | some d => some ("commit success: " ++ d.createCommitOnBranch.commit.url)
     | none => none)
  | Except.error e => (topLevelHandler e, none)

/-- Membership in `jsKeysGo`: first occurrences not yet seen. -/
theorem mem_jsKeysGo (a : String) : ∀ (l seen : List String),
    a ∈ jsKeysGo seen l ↔ a ∈ l ∧ a ∉ seen := by
  intro l
  induction l with
  | nil => intro seen; simp [jsKeysGo]
  | cons f rest ih =>
    intro seen
    by_cases hf : f ∈ seen
    · by_cases haf : a = f <;>
        simp_all [jsKeysGo, ih]
    · by_cases haf : a = f <;>
        simp_all [jsKeysGo, ih, List.mem_append]

/-- `jsKeys` preserves membership. -/
theorem mem_jsKeys (a : String) (l : List String) : a ∈ jsKeys l ↔ a ∈ l := by
  simp [jsKeys, mem_jsKeysGo]

/-- The "absent rather than empty" wrapping at the end of
`getRepoFilesClassify` is transparent to `getD []`. -/
theorem optList_getD (l : List α) :
    (if l.length ≠ 0 then some l else none).getD [] = l := by
  split <;> simp_all [List.length_eq_zero]

/-- Characterization of the `createFiles` bucket of `getRepoFilesClassify`. -/
theorem mem_createFiles_classify (cm del : List String) (remote : String → Bool)
    (p : String) :
    p ∈ ((getRepoFilesClassify cm del remote).createFiles.getD []) ↔
      p ∈ cm ∧ remote (alias58 p) = false := by
  simp only [getRepoFilesClassify, optList_getD]
  simp [List.mem_filter, mem_jsKeys]

/-- Characterization of the `modifyFiles` bucket of `getRepoFilesClassify`. -/
theorem mem_modifyFiles_classify (cm del : List String) (remote : String → Bool)
    (p : String) :
    p ∈ ((getRepoFilesClassify cm del remote).modifyFiles.getD []) ↔
      p ∈ cm ∧ remote (alias58 p) = true := by
  simp only [getRepoFilesClassify, optList_getD]
  simp [List.mem_filter, mem_jsKeys]

/-- Characterization of the `deleteFiles` bucket of `getRepoFilesClassify`. -/
theorem mem_deleteFiles_classify (cm del : List String) (remote : String → Bool)
    (p : String) :
    p ∈ ((getRepoFilesClassify cm del remote).deleteFiles.getD []) ↔
      p ∈ del ∧ remote (alias58 p) = true := by
  simp only [getRepoFilesClassify, optList_getD]
  by_cases hdel : del.length ≠ 0
  · simp [hdel, List.mem_filter, mem_jsKeys]
  · have : del = [] := by simpa [List.length_eq_zero] using hdel
    subst this
    simp

/-- If some listed file is missing, `checkFilesExist` throws the NotFound
error naming a missing file (the first one). -/
theorem checkFilesExist_error_of_missing (files : List String)
    (existsOnDisk : String → Bool)
    (h : ∃ f, f ∈ files ∧ existsOnDisk f = false) :
    ∃ f, f ∈ files ∧ existsOnDisk f = false ∧
      checkFilesExist files existsOnDisk =
        Except.error ("create/modify file '" ++ f ++ "' does not exist") := by
  induction files with
  | nil => simp at h
  | cons g rest ih =>
    by_cases hg : existsOnDisk g
    · obtain ⟨f, hf, hex⟩ := h
      cases hf with
      | head => rw [hg] at hex; cases hex
      | tail _ hf =>
        obtain ⟨f', h1, h2, h3⟩ := ih ⟨f, hf, hex⟩
        refine ⟨f', List.mem_cons_of_mem _ h1, h2, ?_⟩
        simpa [checkFilesExist, hg] using h3
    · refine ⟨g, List.mem_cons_self _ _, by simpa using hg, ?_⟩
      simp [checkFilesExist, hg]

/-- C1: `getInputRepository` parses an explicit `OWNER/REPOSITORY` input into
its owner and repository; but for the no-slash input `"octocat"` it does NOT
fail: `repo` is `undefined`, the guard `owner === '' || repo === ''` is false
(`undefined === ''` is `false` in JavaScript), and the function returns
successfully with an undefined repository — contradicting its own
documentation ("must be formatted as 'OWNER/REPOSITORY'", "@throws error if
action input could not be parsed") and the claim. -/
theorem c1_repository_no_slash_not_rejected :
    getInputRepository "octocat/Hello-World" "" =
      Except.ok { owner := "octocat", repository := some "Hello-World" } ∧
    getInputRepository "octocat" "" =
      Except.ok { owner := "octocat", repository := none } :=
  ⟨rfl, rfl⟩

/-- C2 counterexample: with the same path `"a"` in both the `files` input and
the `delete_files` input and the remote reporting it present, the path lands
in both `modifyFiles` and `deleteFiles`, so the buckets are not pairwise
disjoint as the claim states. -/
theorem c2_counterexample :
    getRepoFilesClassify ["a"] ["a"] (fun _ => true) =
      { createFiles := none, modifyFiles := some ["a"],
        deleteFiles := some ["a"] } :=
  rfl

/-- C2 (amended): `createFiles` and `modifyFiles` are always disjoint
(unconditionally, also for overlapping inputs); and whenever the
create/modify input list and the delete input list share no path, the delete
bucket is additionally disjoint from both, so all three buckets of
`getRepoFilesClassify` are pairwise disjoint. -/
theorem c2_buckets_disjoint (cm del : List String) (remote : String → Bool)
    (p : String) :
    ¬(p ∈ ((getRepoFilesClassify cm del remote).createFiles.getD []) ∧
      p ∈ ((getRepoFilesClassify cm del remote).modifyFiles.getD [])) ∧
    ((∀ q ∈ cm, q ∉ del) →
      ¬(p ∈ ((getRepoFilesClassify cm del remote).createFiles.getD []) ∧
        p ∈ ((getRepoFilesClassify cm del remote).deleteFiles.getD [])) ∧
      ¬(p ∈ ((getRepoFilesClassify cm del remote).modifyFiles.getD []) ∧
        p ∈ ((getRepoFilesClassify cm del remote).deleteFiles.getD []))) := by
  constructor
  · rintro ⟨h1, h2⟩
    rw [mem_createFiles_classify] at h1
    rw [mem_modifyFiles_classify] at h2
    rw [h1.2] at h2
    cases h2.2
  · intro hdisj
    constructor
    · rintro ⟨h1, h2⟩
      rw [mem_createFiles_classify] at h1
      rw [mem_deleteFiles_classify] at h2
      exact hdisj p h1.1 h2.1
    · rintro ⟨h1, h2⟩
      rw [mem_modifyFiles_classify] at h1
      rw [mem_deleteFiles_classify] at h2
      exact hdisj p h1.1 h2.1

/-- Witness for C2 (amended): the unconditional create/modify disjointness at
the overlapping counterexample inputs, and the full pairwise disjointness at
disjoint concrete inputs. -/
theorem c2_buckets_disjoint_witness :
    ¬("a" ∈ ((getRepoFilesClassify ["a"] ["a"] (fun _ => true)).createFiles.getD []) ∧
      "a" ∈ ((getRepoFilesClassify ["a"] ["a"] (fun _ => true)).modifyFiles.getD [])) ∧
    (¬("a" ∈ ((getRepoFilesClassify ["a"] ["b"] (fun _ => true)).createFiles.getD []) ∧
       "a" ∈ ((getRepoFilesClassify ["a"] ["b"] (fun _ => true)).deleteFiles.getD [])) ∧
     ¬("a" ∈ ((getRepoFilesClassify ["a"] ["b"] (fun _ => true)).modifyFiles.getD []) ∧
       "a" ∈ ((getRepoFilesClassify ["a"] ["b"] (fun _ => true)).deleteFiles.getD []))) :=
  ⟨(c2_buckets_disjoint ["a"] ["a"] (fun _ => true) "a").1,
   (c2_buckets_disjoint ["a"] ["b"] (fun _ => true) "a").2 (by decide)⟩

/-- C4: on a message-file content with two leading blank lines the blank-line
loop (which mutates the array it iterates) leaves one blank line in place, so
the headline becomes the empty string and the real title is demoted into the
body — and a file of only blank lines does not raise "commit message is
empty".  Both contradict the claimed "discard all leading blank lines"
algorithm (which the inline branch does implement thanks to its pre-trim). -/
theorem c4_message_file_leading_blanks :
    getInputCommitMessageFromFileContent "\n\nTitle" =
      Except.ok { default := none, headline := "", body := some "Title" } ∧
    getInputCommitMessageFromFileContent "\n\n\n" =
      Except.ok { default := none, headline := "", body := none } ∧
    getInputCommitMessageFromInline "\n\nTitle" =
      Except.ok { default := none, headline := "Title", body := none } :=
  ⟨rfl, rfl, rfl⟩

/-- C5 counterexample: a response whose `errors` field is present but an
empty array still makes `createCommit` fail (the source checks
`errors !== undefined`, not non-emptiness), contradicting the claimed
"if and only if the error list is non-empty". -/
theorem c5_counterexample :
    checkCommitResponse { data := none, errors := some [] } =
      Except.error "error(s) processing the commit: []" :=
  rfl

/-- C5 (amended): `createCommit` fails exactly when the response carries an
`errors` field (present, possibly empty); the failure message embeds the
JSON-serialized array of the error messages in response order, and a
response without an `errors` field is returned unchanged. -/
theorem c5_commit_rejection (resp : CreateCommitResponseType) :
    (resp.errors = none → checkCommitResponse resp = Except.ok resp) ∧
    (∀ errors, resp.errors = some errors →
      checkCommitResponse resp =
        Except.error ("error(s) processing the commit: " ++
          jsonStringifyStrings (errors.map (fun e => e.message)))) := by
  constructor
  · intro h
    simp [checkCommitResponse, h]
  · intro errors h
    simp [checkCommitResponse, h]

/-- Witness for C5 (amended): the spec's example with errors
`"ref not found"` and `"oid mismatch"` produces both strings, order
preserved, in JSON-array form. -/
theorem c5_commit_rejection_witness :
    checkCommitResponse
      { data := none
        errors := some
          [{ type := "NOT_FOUND", path := [], locations := [], message := "ref not found" },
           { type := "STALE", path := [], locations := [], message := "oid mismatch" }] } =
      Except.error
        "error(s) processing the commit: [\"ref not found\",\"oid mismatch\"]" := by
  have h := (c5_commit_rejection
    { data := none
      errors := some
        [{ type := "NOT_FOUND", path := [], locations := [], message := "ref not found" },
         { type := "STALE", path := [], locations := [], message := "oid mismatch" }] }).2
    [{ type := "NOT_FOUND", path := [], locations := [], message := "ref not found" },
     { type := "STALE", path := [], locations := [], message := "oid mismatch" }] rfl
  exact h

/-- C6: `getRepoFilesClassify` never returns an empty-but-present bucket, and
in the mutation input `additions` is present exactly when `createFiles` or
`modifyFiles` is, `deletions` exactly when `deleteFiles` is. -/
theorem c6_empty_buckets_omitted :
    (∀ (cm del : List String) (remote : String → Bool),
      ((getRepoFilesClassify cm del remote).createFiles == some []) = false ∧
      ((getRepoFilesClassify cm del remote).modifyFiles == some []) = false ∧
      ((getRepoFilesClassify cm del remote).deleteFiles == some []) = false) ∧
    (∀ (fa : RepoFilesActionType) (readFile : String → String),
      (buildFileChanges fa readFile).additions.isSome =
        (fa.createFiles.isSome || fa.modifyFiles.isSome) ∧
      (buildFileChanges fa readFile).deletions.isSome = fa.deleteFiles.isSome) := by
  constructor
  · intro cm del remote
    refine ⟨?_, ?_, ?_⟩ <;>
      · simp only [getRepoFilesClassify]
        split <;> simp_all
  · intro fa readFile
    constructor
    · simp only [buildFileChanges]
      split <;> simp_all
    · simp only [buildFileChanges]
      cases fa.deleteFiles <;> simp

/-- C7: the default commit message body lists created, then modified, then
deleted files, one line each, `created `/`deleted ` carrying a double space,
absent buckets contributing no lines; on the spec's example it is exactly
`created  'a.txt'\nmodified 'b.txt'\ndeleted  'c.txt'`. -/
theorem c7_default_message_body :
    generateDefaultCommitMessageBody
      { createFiles := some ["a.txt"], modifyFiles := some ["b.txt"],
        deleteFiles := some ["c.txt"] } =
      "created  'a.txt'\nmodified 'b.txt'\ndeleted  'c.txt'" ∧
    (∀ files : RepoFilesActionType,
      generateDefaultCommitMessageBody files =
        String.intercalate "\n"
          ((files.createFiles.getD []).map (fun f => "created  '" ++ f ++ "'") ++
           (files.modifyFiles.getD []).map (fun f => "modified '" ++ f ++ "'") ++
           (files.deleteFiles.getD []).map (fun f => "deleted  '" ++ f ++ "'"))) := by
  constructor
  · rfl
  · intro files
    simp only [generateDefaultCommitMessageBody]
    cases files.createFiles <;> cases files.modifyFiles <;>
      cases files.deleteFiles <;> simp

/-- C9: when a resolved create/modify path is missing on local disk, the run
fails with the NotFound message for a missing file and the network-operation
trace is empty: neither the classification query nor the commit mutation was
started. -/
theorem c9_local_existence_gate (files deleteFiles : List String)
    (message : CommitMessageType) (existsOnDisk : String → Bool)
    (remote : String → Bool) (readFile : String → String)
    (commitResp : CreateCommitResponseType)
    (h : ∃ f, f ∈ files ∧ existsOnDisk f = false) :
    (mainAfterInputs files deleteFiles message existsOnDisk remote readFile
        commitResp).2 = [] ∧
    ∃ f, f ∈ files ∧ existsOnDisk f = false ∧
      (mainAfterInputs files deleteFiles message existsOnDisk remote readFile
          commitResp).1 =
        Except.error ("create/modify file '" ++ f ++ "' does not exist") := by
  obtain ⟨f, h1, h2, h3⟩ := checkFilesExist_error_of_missing files existsOnDisk h
  constructor
  · simp [mainAfterInputs, h3]
  · exact ⟨f, h1, h2, by simp [mainAfterInputs, h3]⟩

/-- Witness for C9 at a concrete missing file. -/
theorem c9_local_existence_gate_witness :
    (mainAfterInputs ["missing.txt"] [] { default := some true, headline := "committed files", body := none } (fun _ => false) (fun _ => true) (fun _ => "") { data := none, errors := none }).2 = [] ∧
    ∃ f, f ∈ ["missing.txt"] ∧ (fun _ => false : String → Bool) f = false ∧
      (mainAfterInputs ["missing.txt"] [] { default := some true, headline := "committed files", body := none } (fun _ => false) (fun _ => true) (fun _ => "") { data := none, errors := none }).1 =
        Except.error ("create/modify file '" ++ f ++ "' does not exist") :=
  c9_local_existence_gate ["missing.txt"] [] _ _ _ _ _
    ⟨"missing.txt", by simp, rfl⟩

/-- C10: a thrown value that is not an `Error` instance is swallowed by the
top-level catch: `setFailed` is not called and no success line is logged —
while an `Error` instance gets its message reported.  The outcome of a
non-`Error` throw is exactly the outcome of a success with `null` data. -/
theorem c10_non_error_swallowed :
    (∀ payload, mainOutcome (Except.error (ThrownValue.nonError payload)) =
      (none, none)) ∧
    (∀ message, mainOutcome (Except.error (ThrownValue.errorInstance message)) =
      (some message, none)) ∧
    (∀ payload, mainOutcome (Except.error (ThrownValue.nonError payload)) =
      mainOutcome (Except.ok { data := none, errors := none })) :=
  ⟨fun _ => rfl, fun _ => rfl, fun _ => rfl⟩

/-- The fueled division loop computes exactly the little-endian base-`b`
digits whenever the fuel covers the value. -/
theorem divRadixGo_eq_digits (b : Nat) (hb : 1 < b) :
    ∀ (fuel x : Nat), x ≤ fuel → divRadixGo b fuel x = Nat.digits b x := by
  intro fuel
  induction fuel with
  | zero =>
    intro x hx
    have hx0 : x = 0 := Nat.le_zero.mp hx
    subst hx0
    simp [divRadixGo]
  | succ fuel ih =>
    intro x hx
    have hdef : divRadixGo b (fuel + 1) x =
        if x = 0 then [] else x % b :: divRadixGo b fuel (x / b) := rfl
    by_cases hx0 : x = 0
    · subst hx0; simp [hdef]
    · rw [hdef, if_neg hx0, Nat.digits_def' hb (Nat.pos_of_ne_zero hx0)]
      congr 1
      apply ih
      have hlt : x / b < x := Nat.div_lt_self (Nat.pos_of_ne_zero hx0) hb
      omega

/-- The source's base-58 digit loop agrees with `Nat.digits 58`. -/
theorem b58DigitsLE_eq_digits (x : Nat) : b58DigitsLE x = Nat.digits 58 x :=
  divRadixGo_eq_digits 58 (by norm_num) x x le_rfl

/-- Left fold of `acc * b + digit` accumulates the big-endian value of the
digit list. -/
theorem foldl_mul_add (b : Nat) :
    ∀ (l : List Nat) (acc : Nat),
      l.foldl (fun a n => a * b + n) acc =
        acc * b ^ l.length + Nat.ofDigits b l.reverse := by
  intro l
  induction l with
  | nil => intro acc; simp
  | cons n rest ih =>
    intro acc
    simp only [List.foldl_cons, List.reverse_cons, List.length_cons]
    rw [ih, Nat.ofDigits_append]
    simp only [Nat.ofDigits_singleton, List.length_reverse]
    ring

/-- The hex-digit counter is bounded by any exponent dominating its input. -/
theorem hexLenGo_le :
    ∀ (fuel x k : Nat), x ≤ fuel → x < 16 ^ k → hexLenGo fuel x ≤ k := by
  intro fuel
  induction fuel with
  | zero =>
    intro x k hx _
    have hx0 : x = 0 := Nat.le_zero.mp hx
    subst hx0
    simp [hexLenGo]
  | succ fuel ih =>
    intro x k hx hk
    have hdef : hexLenGo (fuel + 1) x =
        if x = 0 then 0 else hexLenGo fuel (x / 16) + 1 := rfl
    by_cases hx0 : x = 0
    · subst hx0
      have h0 : hexLenGo (fuel + 1) 0 = 0 := rfl
      simp [h0]
    · rw [hdef, if_neg hx0]
      cases k with
      | zero =>
        exfalso
        have : x = 0 := by
          have := hk
          simp only [pow_zero] at this
          omega
        exact hx0 this
      | succ k =>
        have h1 : x / 16 ≤ fuel := by
          have hlt : x / 16 < x := Nat.div_lt_self (Nat.pos_of_ne_zero hx0) (by norm_num)
          omega
        have h2 : x / 16 < 16 ^ k := by
          rw [Nat.div_lt_iff_lt_mul (by norm_num : 0 < 16)]
          calc x < 16 ^ (k + 1) := hk
          _ = 16 ^ k * 16 := by rw [pow_succ]
        exact Nat.succ_le_succ (ih (x / 16) k h1 h2)

/-- A byte (value below 256) always occupies exactly the padded two hex
digits. -/
theorem hexChunkLen_eq_two (n : Nat) (h : n < 256) : hexChunkLen n = 2 := by
  have h2 : hexLenGo n n ≤ 2 :=
    hexLenGo_le n n 2 le_rfl (by norm_num at h ⊢; omega)
  simp [hexChunkLen, Nat.max_eq_left h2]

/-- On byte lists, `hexValue` is the big-endian base-256 value. -/
theorem hexValue_bytes (l : List Nat) (h : ∀ n ∈ l, n < 256) :
    hexValue l = Nat.ofDigits 256 l.reverse := by
  have hcongr : l.foldl (fun acc n => acc * 16 ^ hexChunkLen n + n) 0 =
      l.foldl (fun acc n => acc * 256 + n) 0 := by
    apply List.foldl_ext
    intro acc n hn
    rw [hexChunkLen_eq_two n (h n hn)]
    norm_num
  rw [hexValue, hcongr, foldl_mul_add]
  simp

/-- A run of zero digits contributes nothing to `ofDigits`. -/
theorem ofDigits_replicate_zero (b : Nat) :
    ∀ k : Nat, Nat.ofDigits b (List.replicate k 0) = 0 := by
  intro k
  induction k with
  | zero => simp
  | succ k ih => simp [List.replicate_succ, Nat.ofDigits_cons, ih]

/-- Decomposition of a unit list at its leading zeros. -/
theorem leadingZeros_decomp :
    ∀ l : List Nat,
      l = List.replicate (leadingZeros l) 0 ++ l.drop (leadingZeros l) := by
  intro l
  induction l with
  | nil => rfl
  | cons n rest ih =>
    by_cases hn : n = 0
    · subst hn
      have hdef : leadingZeros (0 :: rest) = leadingZeros rest + 1 := by
        simp [leadingZeros]
      rw [hdef, List.replicate_succ]
      simpa using ih
    · have hdef : leadingZeros (n :: rest) = 0 := by
        simp [leadingZeros, hn]
      rw [hdef]
      rfl

/-- The unit right after the leading zeros is non-zero. -/
theorem head_drop_leadingZeros_ne_zero :
    ∀ (l : List Nat) (a : Nat) (tl : List Nat),
      l.drop (leadingZeros l) = a :: tl → a ≠ 0 := by
  intro l
  induction l with
  | nil => intro a tl h; cases h
  | cons n rest ih =>
    intro a tl h
    by_cases hn : n = 0
    · subst hn
      have hdef : leadingZeros (0 :: rest) = leadingZeros rest + 1 := by
        simp [leadingZeros]
      rw [hdef] at h
      exact ih a tl h
    · have hdef : leadingZeros (n :: rest) = 0 := by
        simp [leadingZeros, hn]
      rw [hdef] at h
      simp only [List.drop_zero] at h
      cases h
      exact hn

/-- Counting leading `'1'`s walks through a `'1'` run. -/
theorem countLeadingOnes_replicate_append (k : Nat) (cs : List Char) :
    countLeadingOnes (List.replicate k '1' ++ cs) = k + countLeadingOnes cs := by
  induction k with
  | zero => simp
  | succ k ih =>
    have hstep : List.replicate (k + 1) '1' ++ cs =
        '1' :: (List.replicate k '1' ++ cs) := by
      simp [List.replicate_succ]
    rw [hstep]
    have hcons : countLeadingOnes ('1' :: (List.replicate k '1' ++ cs)) =
        countLeadingOnes (List.replicate k '1' ++ cs) + 1 := by
      simp [countLeadingOnes]
    rw [hcons, ih]
    omega

/-- The alphabet lookup is a left inverse of alphabet indexing on the 58
valid digit values. -/
theorem b58Index_b58char : ∀ d : Nat, d < 58 → b58Index (b58char d) = d := by
  decide

/-- No alphabet character other than the zero digit is `'1'`. -/
theorem b58char_ne_one : ∀ d : Nat, d < 58 → d ≠ 0 → b58char d ≠ '1' := by
  decide

/-- Decoding the alphabet characters of a big-endian digit list recovers the
encoded value. -/
theorem decodeB58Chars_map (ds : List Nat) (h : ∀ d ∈ ds, d < 58) :
    decodeB58Chars (ds.map b58char) = Nat.ofDigits 58 ds.reverse := by
  rw [decodeB58Chars, List.foldl_map]
  have hcongr : ds.foldl (fun acc d => acc * 58 + b58Index (b58char d)) 0 =
      ds.foldl (fun acc d => acc * 58 + d) 0 := by
    apply List.foldl_ext
    intro acc d hd
    rw [b58Index_b58char d (h d hd)]
  rw [hcongr, foldl_mul_add]
  simp

/-- Shape of a non-empty base58 encoding: the leading-zero `'1'` run followed
by the big-endian digit characters of the hex value. -/
theorem base58EncodeUnits_data (l : List Nat) (h : l ≠ []) :
    (base58EncodeUnits l).data =
      List.replicate (leadingZeros l) '1' ++
        (Nat.digits 58 (hexValue l)).reverse.map b58char := by
  have hlen : ¬(l.length = 0) := by simpa [List.length_eq_zero] using h
  simp only [base58EncodeUnits, if_neg hlen]
  show ((b58DigitsLE (hexValue l)).map b58char ++
      List.replicate (leadingZeros l) '1').reverse =
    List.replicate (leadingZeros l) '1' ++
      (Nat.digits 58 (hexValue l)).reverse.map b58char
  rw [List.reverse_append, List.reverse_replicate, b58DigitsLE_eq_digits,
    List.map_reverse]

/-- Round trip: decoding any base58-encoded byte list (units below 256)
recovers the byte list. -/
theorem base58_decode_encode (l : List Nat) (h256 : ∀ n ∈ l, n < 256) :
    base58Decode (base58EncodeUnits l) = l := by
  by_cases hnil : l = []
  · subst hnil; rfl
  · have hdecomp := leadingZeros_decomp l
    have hx : hexValue l =
        Nat.ofDigits 256 (l.drop (leadingZeros l)).reverse := by
      rw [hexValue_bytes l h256]
      conv_lhs => rw [hdecomp]
      rw [List.reverse_append, List.reverse_replicate, Nat.ofDigits_append,
        ofDigits_replicate_zero]
      ring
    have hb256 : Nat.digits 256 (hexValue l) =
        (l.drop (leadingZeros l)).reverse := by
      rw [hx]
      apply Nat.digits_ofDigits 256 (by norm_num)
      · intro a ha
        exact h256 a (List.drop_subset _ _ (List.mem_reverse.mp ha))
      · intro hne
        have hm : l.drop (leadingZeros l) ≠ [] := by
          intro hcontra
          simp [hcontra] at hne
        obtain ⟨a, tl, hatl⟩ := List.exists_cons_of_ne_nil hm
        have ha : a ≠ 0 := head_drop_leadingZeros_ne_zero l a tl hatl
        have hgl := List.head?_reverse ((l.drop (leadingZeros l)).reverse)
        rw [List.reverse_reverse] at hgl
        have h2 : (l.drop (leadingZeros l)).reverse.getLast? = some a := by
          rw [← hgl, hatl]
          rfl
        rw [List.getLast?_eq_getLast_of_ne_nil hne] at h2
        have h4 : (l.drop (leadingZeros l)).reverse.getLast hne = a :=
          Option.some.inj h2
        rw [h4]
        exact ha
    have hdata := base58EncodeUnits_data l hnil
    have hcount : countLeadingOnes (base58EncodeUnits l).data = leadingZeros l := by
      rw [hdata, countLeadingOnes_replicate_append]
      have hzero : countLeadingOnes
          ((Nat.digits 58 (hexValue l)).reverse.map b58char) = 0 := by
        by_cases hx0 : hexValue l = 0
        · simp [hx0]
          rfl
        · have hds : Nat.digits 58 (hexValue l) ≠ [] :=
            Nat.digits_ne_nil_iff_ne_zero.mpr hx0
          have hdsrev : (Nat.digits 58 (hexValue l)).reverse ≠ [] := by
            simpa using hds
          obtain ⟨a, tl, hatl⟩ := List.exists_cons_of_ne_nil hdsrev
          have h1 : (Nat.digits 58 (hexValue l)).reverse.head? =
              (Nat.digits 58 (hexValue l)).getLast? := List.head?_reverse _
          rw [hatl, List.getLast?_eq_getLast_of_ne_nil hds] at h1
          simp only [List.head?_cons, Option.some.injEq] at h1
          have ha0 : a ≠ 0 := by
            rw [h1]
            exact Nat.getLast_digit_ne_zero 58 hx0
          have ha58 : a < 58 := by
            apply Nat.digits_lt_base (by norm_num)
            rw [h1]
            exact List.getLast_mem hds
          rw [hatl]
          simp only [List.map_cons, countLeadingOnes,
            if_neg (b58char_ne_one a ha58 ha0)]
      rw [hzero]
      omega
    have hdrop : (base58EncodeUnits l).data.drop (leadingZeros l) =
        (Nat.digits 58 (hexValue l)).reverse.map b58char := by
      rw [hdata]
      have hdl := List.drop_left (List.replicate (leadingZeros l) '1')
        ((Nat.digits 58 (hexValue l)).reverse.map b58char)
      rw [List.length_replicate] at hdl
      exact hdl
    have hdec : decodeB58Chars
        ((base58EncodeUnits l).data.drop (leadingZeros l)) = hexValue l := by
      rw [hdrop, decodeB58Chars_map]
      · rw [List.reverse_reverse, Nat.ofDigits_digits]
      · intro d hd
        exact Nat.digits_lt_base (by norm_num) (List.mem_reverse.mp hd)
    show List.replicate (countLeadingOnes (base58EncodeUnits l).data) 0 ++
        (divRadixGo 256
          (decodeB58Chars ((base58EncodeUnits l).data.drop
            (countLeadingOnes (base58EncodeUnits l).data)))
          (decodeB58Chars ((base58EncodeUnits l).data.drop
            (countLeadingOnes (base58EncodeUnits l).data)))).reverse = l
    rw [hcount, hdec, divRadixGo_eq_digits 256 (by norm_num) _ _ le_rfl, hb256,
      List.reverse_reverse]
    exact hdecomp.symm

/-- For characters below code point 256 the UTF-16 conversion yields exactly
one unit per character, the character's code. -/
theorem utf16_flat_small (cs : List Char) (h : ∀ c ∈ cs, c.toNat < 256) :
    cs.flatMap (fun c =>
      if c.toNat < 0x10000 then [c.toNat]
      else [0xD800 + (c.toNat - 0x10000) / 0x400,
            0xDC00 + (c.toNat - 0x10000) % 0x400]) = cs.map Char.toNat := by
  induction cs with
  | nil => rfl
  | cons c rest ih =>
    have hc : c.toNat < 0x10000 :=
      lt_trans (h c (List.mem_cons_self _ _)) (by norm_num)
    have hrest : ∀ d ∈ rest, d.toNat < 256 :=
      fun d hd => h d (List.mem_cons_of_mem _ hd)
    simp only [List.flatMap_cons, List.map_cons, if_pos hc, ih hrest]
    rfl

/-- `utf16Units` on a string of sub-256 characters is the character codes. -/
theorem utf16Units_small (s : String) (h : ∀ c ∈ s.data, c.toNat < 256) :
    utf16Units s = s.data.map Char.toNat :=
  utf16_flat_small s.data h

/-- Character codes determine characters. -/
theorem char_toNat_injective : Function.Injective Char.toNat := by
  intro a b h
  exact Char.ext (UInt32.ext h)

/-- Cancelling the common `'_'` prefix of two aliases. -/
theorem underscore_append_cancel (a b : String) (h : "_" ++ a = "_" ++ b) :
    a = b := by
  have h2 : "_".data ++ a.data = "_".data ++ b.data := by
    rw [← String.data_append, ← String.data_append, h]
  have h3 : a.data = b.data := List.append_cancel_left h2
  calc a = String.mk a.data := rfl
  _ = String.mk b.data := congrArg String.mk h3
  _ = b := rfl

/-- On a string of sub-256 characters the `Uint8Array` wrap is the identity:
the byte list fed to the encoder is exactly the character codes. -/
theorem wrappedUnits_small (s : String) (h : ∀ c ∈ s.data, c.toNat < 256) :
    (utf16Units s).map (fun n => n % 256) = s.data.map Char.toNat := by
  rw [utf16Units_small s h, List.map_map]
  apply List.map_congr_left
  intro c hc
  exact Nat.mod_eq_of_lt (h c hc)

/-- The wrapped unit list always consists of bytes. -/
theorem wrappedUnits_lt (l : List Nat) :
    ∀ n ∈ l.map (fun n => n % 256), n < 256 := by
  intro n hn
  obtain ⟨m, _, rfl⟩ := List.mem_map.mp hn
  exact Nat.mod_lt m (by norm_num)

/-- C3 counterexample: the alias map is NOT injective on arbitrary path
strings.  The `new Uint8Array(...)` constructor reduces every `charCodeAt`
unit modulo 256, so the one-character path `"ā"` (U+0101, unit 257, wrapped
to byte 1) and the one-character path `"\u0001"` (byte 1) feed the encoder
the same byte list and collide on the alias `"_2"`. -/
theorem c3_alias_collision :
    alias58 "ā" = alias58 "\u0001" ∧ "ā" ≠ "\u0001" :=
  ⟨rfl, by decide⟩

/-- C3 (amended): on paths all of whose characters are code points below 256
(one byte per character, unchanged by the `Uint8Array` wrap — in particular
every ASCII path), the alias map `p ↦ '_' ++ base58Encode p` is injective,
so each response field maps back to a unique originating path. -/
theorem c3_alias_injective_on_byte_paths (s t : String)
    (hs : ∀ c ∈ s.data, c.toNat < 256) (ht : ∀ c ∈ t.data, c.toNat < 256)
    (h : alias58 s = alias58 t) : s = t := by
  have henc : base58Encode s = base58Encode t := underscore_append_cancel _ _ h
  have hu : (utf16Units s).map (fun n => n % 256) =
      (utf16Units t).map (fun n => n % 256) := by
    calc (utf16Units s).map (fun n => n % 256)
        = base58Decode (base58EncodeUnits ((utf16Units s).map (fun n => n % 256))) :=
          (base58_decode_encode _ (wrappedUnits_lt (utf16Units s))).symm
    _ = base58Decode (base58EncodeUnits ((utf16Units t).map (fun n => n % 256))) := by
          show base58Decode (base58Encode s) = base58Decode (base58Encode t)
          rw [henc]
    _ = (utf16Units t).map (fun n => n % 256) :=
          base58_decode_encode _ (wrappedUnits_lt (utf16Units t))
  rw [wrappedUnits_small s hs, wrappedUnits_small t ht] at hu
  have hdata := List.map_injective_iff.mpr char_toNat_injective hu
  calc s = String.mk s.data := rfl
  _ = String.mk t.data := congrArg String.mk hdata
  _ = t := rfl

/-- Witness for C3 (amended): the theorem, applied at the two distinct
concrete ASCII paths `"a.txt"` and `"b.txt"` with its character-bound
hypotheses discharged by `decide`, yields that their aliases differ — a fact
about the program refuted for no sub-256 path pair. -/
theorem c3_alias_injective_witness :
    alias58 "a.txt" ≠ alias58 "b.txt" := by
  intro h
  have heq : "a.txt" = "b.txt" :=
    c3_alias_injective_on_byte_paths "a.txt" "b.txt" (by decide) (by decide) h
  exact absurd heq (by decide)

/-- C8: base58 encoding of the empty input is the empty string; decoding an
encoded non-empty byte sequence recovers it; and an input with a leading
zero byte encodes to a string starting with the alphabet-first character
`'1'`. -/
theorem c8_base58_round_trip :
    base58EncodeUnits [] = "" ∧
    (∀ l : List Nat, (∀ n ∈ l, n < 256) → l ≠ [] →
      base58Decode (base58EncodeUnits l) = l) ∧
    (∀ tl : List Nat, (∀ n ∈ tl, n < 256) →
      (base58EncodeUnits (0 :: tl)).data.head? = some '1') := by
  refine ⟨rfl, ?_, ?_⟩
  · intro l h _
    exact base58_decode_encode l h
  · intro tl _
    have hdata := base58EncodeUnits_data (0 :: tl) (by simp)
    rw [hdata]
    have hlz : leadingZeros (0 :: tl) = leadingZeros tl + 1 := by
      simp [leadingZeros]
    rw [hlz, List.replicate_succ]
    simp

/-- Witness for C8 at concrete byte sequences. -/
theorem c8_base58_round_trip_witness :
    base58Decode (base58EncodeUnits [0, 255, 7]) = [0, 255, 7] ∧
    (base58EncodeUnits (0 :: [255])).data.head? = some '1' :=
  ⟨c8_base58_round_trip.2.1 [0, 255, 7] (by decide) (by decide),
   c8_base58_round_trip.2.2 [255] (by decide)⟩
